import Mathlib

/-!
Verification development for the Newton–Raphson fractal program
(`Fractal_exercis_new.py`).

The program iterates the Newton update `z ↦ z - f(z)/f'(z)` for two
polynomials (`f(z) = z³ - 1` and `f2(z) = 35z⁹ - 180z⁷ + 378z⁵ - 420z³ + 315z`)
over a rectangular grid of complex starting points, classifies each point by
the root it reaches, and records iteration counts.

Embedding choices:
* Python `complex` is modelled by `CC`, a pair of exact rationals with the
  usual complex ring operations and the component-wise division formula.
  Exact rational arithmetic stands in for double-precision floats, so the
  claims are settled for the ideal (round-off free) semantics of the code.
* Python's `ZeroDivisionError` (complex division by exact zero) is modelled by
  the Newton step returning `none`; `solve_cnewton` consequently returns
  `Except Unit (Option Outcome)`: `.error ()` is an uncaught exception,
  `.ok none` is Python's `None` (falling off the end of the function), and
  `.ok (some o)` is a returned outcome tuple.
* The convergence test `abs(z_new - z) < tolerance` compares a complex
  modulus with the positive constant `tolerance`; it is encoded by the
  equivalent exact-rational test `normSq (z_new - z) < tolerance²`.
* `np.log10(counter)` is a derived value; theorems express it as
  `Real.logb 10 counter` applied to the stored iteration counter.
-/

namespace Fractal

/-- Exact model of Python `complex`: a pair of rationals (real, imaginary). -/
structure CC where
  re : ℚ
  im : ℚ
deriving DecidableEq, Repr

namespace CC

@[ext] theorem ext' {z w : CC} (hre : z.re = w.re) (him : z.im = w.im) : z = w := by
  cases z; cases w; cases hre; cases him; rfl

def add (z w : CC) : CC := ⟨z.re + w.re, z.im + w.im⟩

def neg (z : CC) : CC := ⟨-z.re, -z.im⟩

def sub (z w : CC) : CC := ⟨z.re - w.re, z.im - w.im⟩

def mul (z w : CC) : CC := ⟨z.re * w.re - z.im * w.im, z.re * w.im + z.im * w.re⟩

/-- Complex division by components, `w / d = w * conj d / |d|²`; this is the
exact-arithmetic value CPython's complex division computes when `d ≠ 0`. -/
def div (w d : CC) : CC :=
  ⟨(w.re * d.re + w.im * d.im) / (d.re ^ 2 + d.im ^ 2),
   (w.im * d.re - w.re * d.im) / (d.re ^ 2 + d.im ^ 2)⟩

instance : Zero CC := ⟨⟨0, 0⟩⟩
instance : One CC := ⟨⟨1, 0⟩⟩
instance : Add CC := ⟨add⟩
instance : Neg CC := ⟨neg⟩
instance : Sub CC := ⟨sub⟩
instance : Mul CC := ⟨mul⟩
instance : Div CC := ⟨div⟩
instance : NatCast CC := ⟨fun n => ⟨n, 0⟩⟩
instance : IntCast CC := ⟨fun n => ⟨n, 0⟩⟩

@[simp] theorem add_re (z w : CC) : (z + w).re = z.re + w.re := rfl
@[simp] theorem add_im (z w : CC) : (z + w).im = z.im + w.im := rfl
@[simp] theorem sub_re (z w : CC) : (z - w).re = z.re - w.re := rfl
@[simp] theorem sub_im (z w : CC) : (z - w).im = z.im - w.im := rfl
@[simp] theorem neg_re (z : CC) : (-z).re = -z.re := rfl
@[simp] theorem neg_im (z : CC) : (-z).im = -z.im := rfl
@[simp] theorem mul_re (z w : CC) : (z * w).re = z.re * w.re - z.im * w.im := rfl
@[simp] theorem mul_im (z w : CC) : (z * w).im = z.re * w.im + z.im * w.re := rfl
@[simp] theorem zero_re : (0 : CC).re = 0 := rfl
@[simp] theorem zero_im : (0 : CC).im = 0 := rfl
@[simp] theorem one_re : (1 : CC).re = 1 := rfl
@[simp] theorem one_im : (1 : CC).im = 0 := rfl
@[simp] theorem natCast_re (n : ℕ) : (n : CC).re = n := rfl
@[simp] theorem natCast_im (n : ℕ) : (n : CC).im = 0 := rfl
@[simp] theorem intCast_re (n : ℤ) : (n : CC).re = n := rfl
@[simp] theorem intCast_im (n : ℤ) : (n : CC).im = 0 := rfl

@[simp] theorem div_re (w d : CC) :
    (w / d).re = (w.re * d.re + w.im * d.im) / (d.re ^ 2 + d.im ^ 2) := rfl
@[simp] theorem div_im (w d : CC) :
    (w / d).im = (w.im * d.re - w.re * d.im) / (d.re ^ 2 + d.im ^ 2) := rfl

instance : CommRing CC where
  add_assoc a b c := by ext <;> simp <;> ring
  zero_add a := by ext <;> simp
  add_zero a := by ext <;> simp
  add_comm a b := by ext <;> simp <;> ring
  mul_assoc a b c := by ext <;> simp <;> ring
  one_mul a := by ext <;> simp
  mul_one a := by ext <;> simp
  mul_comm a b := by ext <;> simp <;> ring
  left_distrib a b c := by ext <;> simp <;> ring
  right_distrib a b c := by ext <;> simp <;> ring
  zero_mul a := by ext <;> simp
  mul_zero a := by ext <;> simp
  neg_add_cancel a := by ext <;> simp
  sub_eq_add_neg a b := by ext <;> simp <;> ring
  nsmul := nsmulRec
  zsmul := zsmulRec
  natCast_zero := by ext <;> simp
  natCast_succ n := by ext <;> simp
  intCast_ofNat n := by ext <;> simp
  intCast_negSucc n := by ext <;> simp [Int.negSucc_eq]

theorem zero_div' (d : CC) : (0 : CC) / d = 0 := by
  ext <;> simp

/-- Squared modulus; `abs z < c` (for `c > 0`) is encoded as `normSq z < c²`. -/
def normSq (z : CC) : ℚ := z.re ^ 2 + z.im ^ 2

@[simp] theorem normSq_zero : normSq 0 = 0 := by simp [normSq]

end CC

open CC

/-- Global `tolerance = 1e-9` (convergence tolerance ε). -/
def tolerance : ℚ := 1 / 10 ^ 9

/-- Global `tolerance2 = 1e-6` (classification tolerance ε₂). -/
def tolerance2 : ℚ := 1 / 10 ^ 6

/-- `f(z) = z**3 - 1`. -/
def f (z : CC) : CC := z ^ 3 - 1

/-- `Newton_Raphson(z) = z - (z**3 - 1)/(3*z**2)`.  Python raises
`ZeroDivisionError` when the denominator is the exact complex zero, modelled
by returning `none`. -/
def Newton_Raphson (z : CC) : Option CC :=
  if 3 * z ^ 2 = 0 then none
  else some (z - (z ^ 3 - 1) / (3 * z ^ 2))

/-- `f2(z) = 35*z**9 - 180*z**7 + 378*z**5 - 420*z**3 + 315*z`. -/
def f2 (z : CC) : CC := 35 * z ^ 9 - 180 * z ^ 7 + 378 * z ^ 5 - 420 * z ^ 3 + 315 * z

/-- `Newton_Raphson2`, with the denominator written with the same literal
coefficient products `35*9`, `180*7`, `378*5`, `420*3` as the source. -/
def Newton_Raphson2 (z : CC) : Option CC :=
  if 35 * 9 * z ^ 8 - 180 * 7 * z ^ 6 + 378 * 5 * z ^ 4 - 420 * 3 * z ^ 2 + 315 = 0 then none
  else some (z - (35 * z ^ 9 - 180 * z ^ 7 + 378 * z ^ 5 - 420 * z ^ 3 + 315 * z) /
    (35 * 9 * z ^ 8 - 180 * 7 * z ^ 6 + 378 * 5 * z ^ 4 - 420 * 3 * z ^ 2 + 315))

/-- The first five components of the tuple returned by `solve_cnewton`.  The
sixth component, `np.log10(counter)`, is a derived value expressed in the
theorems as `Real.logb 10 counter`. -/
structure Outcome where
  x0 : ℚ
  y0 : ℚ
  root : CC
  fval : CC
  counter : ℕ
deriving DecidableEq, Repr

instance {ε α : Type} [DecidableEq ε] [DecidableEq α] : DecidableEq (Except ε α) := fun a b =>
  match a, b with
  | .error a, .error b => if h : a = b then isTrue (by rw [h]) else isFalse (by simp [h])
  | .error _, .ok _ => isFalse (by simp)
  | .ok _, .error _ => isFalse (by simp)
  | .ok a, .ok b => if h : a = b then isTrue (by rw [h]) else isFalse (by simp [h])

/-- The return tuple `x_duplet, y_duplet, z_new, f_new, counter, log10(counter)`;
both return statements of the loop body build exactly this. -/
def mkOutcome (feval : CC → CC) (x0 y0 : ℚ) (z_new : CC) (counter : ℕ) : Outcome :=
  ⟨x0, y0, z_new, feval z_new, counter⟩

/-- The `for i in range(M)` loop of `solve_cnewton`, with `fuel` the number of
remaining iterations (`fuel = M - i`) and `counter` the current counter value.
`fuel = 0` after the loop corresponds to Python falling off the end of the
function and returning `None`; `i == M - 1` corresponds to `fuel = 1` on
entry to the body. -/
def solveLoop (step : CC → Option CC) (feval : CC → CC) (x0 y0 : ℚ) :
    ℕ → CC → ℕ → Except Unit (Option Outcome)
  | 0, _, _ => .ok none
  | fuel + 1, z, counter =>
    match step z with
    | none => .error ()
    | some z_new =>
      if feval z_new = 0 ∨ normSq (z_new - z) < tolerance ^ 2 then
        .ok (some (mkOutcome feval x0 y0 z_new (counter + 1)))
      else if fuel = 0 then
        .ok (some (mkOutcome feval x0 y0 z_new (counter + 1)))
      else
        solveLoop step feval x0 y0 fuel z_new (counter + 1)

/-- `solve_cnewton(duplet)` for the cubic, with the duplet passed as the pair
`(x, y)` and the global `M` as an explicit integer parameter (`range(M)` is
empty for every `M ≤ 0`, hence `Int.toNat`). -/
def solve_cnewton (x y : ℚ) (M : ℤ) : Except Unit (Option Outcome) :=
  solveLoop Newton_Raphson f x y M.toNat ⟨x, y⟩ 0

/-- `solve_cnewton2(duplet)` for the degree-9 polynomial. -/
def solve_cnewton2 (x y : ℚ) (M : ℤ) : Except Unit (Option Outcome) :=
  solveLoop Newton_Raphson2 f2 x y M.toNat ⟨x, y⟩ 0

/-- `iterate step n z₀` is the `n`-th Newton iterate `z_n` (and `none` if a
division fault occurs along the way). -/
def iterate (step : CC → Option CC) : ℕ → CC → Option CC
  | 0, z => some z
  | n + 1, z => (step z).bind (iterate step n)

/-- `np.linspace(a, b, N)[k] = a + k*(b-a)/(N-1)` in exact arithmetic. -/
def linspace (a b : ℚ) (N : ℕ) (k : ℕ) : ℚ := a + k * (b - a) / ((N : ℚ) - 1)

/-- `grid[i][j]` after `x, y = np.meshgrid(x_values, y_values)` (default `xy`
indexing: `x[i][j] = x_values[j]`, `y[i][j] = y_values[i]`) and
`grid = np.dstack((x, y))`: the pair `(x_values[j], y_values[i])`. -/
def grid (x1 y1 x2 y2 : ℚ) (N : ℕ) (i j : ℕ) : ℚ × ℚ :=
  (linspace x1 x2 N j, linspace y1 y2 N i)

/-- Modelled from the spec: the linear interpolation `lerp(a, b, t) = a + t*(b-a)`
used by the spec's grid invariant; kept separate from `linspace` so the two can
be compared. -/
def lerp (a b t : ℚ) : ℚ := a + t * (b - a)

/-- One step of the grid evaluation loop body applied to a list of duplets:
`solve_cnewton(grid[i][j])` followed by tuple unpacking.  An uncaught
exception (a division fault, or unpacking a `None` return) aborts the whole
traversal; otherwise the outcomes are collected in order. -/
def evalPoints (solver : ℚ → ℚ → Except Unit (Option Outcome)) :
    List (ℚ × ℚ) → Except Unit (List Outcome)
  | [] => .ok []
  | p :: rest =>
    match solver p.1 p.2 with
    | .error e => .error e
    | .ok none => .error ()
    | .ok (some o) =>
      match evalPoints solver rest with
      | .error e => .error e
      | .ok os => .ok (o :: os)

/-- The row-major list of duplets `grid[i][j]` visited by the nested
`for i in range(N): for j in range(N):` loops. -/
def gridDuplets (x1 y1 x2 y2 : ℚ) (N : ℕ) : List (ℚ × ℚ) :=
  (List.range N).flatMap fun i => (List.range N).map fun j => grid x1 y1 x2 y2 N i j

/-- The whole grid-evaluation loop: run the solver at every grid point in
row-major order, aborting on an uncaught exception. -/
def gridEval (solver : ℚ → ℚ → Except Unit (Option Outcome))
    (x1 y1 x2 y2 : ℚ) (N : ℕ) : Except Unit (List Outcome) :=
  evalPoints solver (gridDuplets x1 y1 x2 y2 N)

/-- The three scatter colors of the cubic classification. -/
inductive CubicLabel
  | black
  | green
  | red
deriving DecidableEq, Repr

/-- The cubic `if/elif/else` classification of `root`. -/
def classify_cubic (root : CC) : CubicLabel :=
  if |root.re - 1| < tolerance2 then .black
  else if |root.im - 0.8660254040| < tolerance2 then .green
  else .red

/-- The nine scatter colors of the degree-9 classification. -/
inductive Deg9Label
  | black
  | green
  | red
  | darkorchid
  | orange
  | yellow
  | cyan
  | white
  | pink
deriving DecidableEq, Repr

/-- The degree-9 `if/elif/.../else` classification of `root`. -/
def classify_deg9 (root : CC) : Deg9Label :=
  if |root.re - 0| < tolerance2 then .black
  else if |root.re - 0.93774544| < tolerance2 ∧ |root.im - 0.65437520| < tolerance2 then .green
  else if |root.re - 0.93774544| < tolerance2 ∧ |root.im + 0.65437520| < tolerance2 then .red
  else if |root.re + 0.93774544| < tolerance2 ∧ |root.im - 0.65437520| < tolerance2 then
    .darkorchid
  else if |root.re + 0.93774544| < tolerance2 ∧ |root.im + 0.65437520| < tolerance2 then .orange
  else if |root.re + 1.48569| < tolerance2 ∧ |root.im - 0.295006| < tolerance2 then .yellow
  else if |root.re + 1.48569| < tolerance2 ∧ |root.im + 0.295006| < tolerance2 then .cyan
  else if |root.re - 1.48569| < tolerance2 ∧ |root.im - 0.295006| < tolerance2 then .white
  else .pink

/-- Branch condition of the first cubic classification branch. -/
def cubic_cond1 (root : CC) : Prop := |root.re - 1| < tolerance2

/-- Branch condition of the second cubic classification branch. -/
def cubic_cond2 (root : CC) : Prop := |root.im - 0.8660254040| < tolerance2

/-- Branch condition 1 of the degree-9 classification (`root 0`). -/
def deg9_cond1 (root : CC) : Prop := |root.re - 0| < tolerance2

/-- Branch condition 2 of the degree-9 classification. -/
def deg9_cond2 (root : CC) : Prop :=
  |root.re - 0.93774544| < tolerance2 ∧ |root.im - 0.65437520| < tolerance2

/-- Branch condition 3 of the degree-9 classification. -/
def deg9_cond3 (root : CC) : Prop :=
  |root.re - 0.93774544| < tolerance2 ∧ |root.im + 0.65437520| < tolerance2

/-- Branch condition 4 of the degree-9 classification. -/
def deg9_cond4 (root : CC) : Prop :=
  |root.re + 0.93774544| < tolerance2 ∧ |root.im - 0.65437520| < tolerance2

/-- Branch condition 5 of the degree-9 classification. -/
def deg9_cond5 (root : CC) : Prop :=
  |root.re + 0.93774544| < tolerance2 ∧ |root.im + 0.65437520| < tolerance2

/-- Branch condition 6 of the degree-9 classification. -/
def deg9_cond6 (root : CC) : Prop :=
  |root.re + 1.48569| < tolerance2 ∧ |root.im - 0.295006| < tolerance2

/-- Branch condition 7 of the degree-9 classification. -/
def deg9_cond7 (root : CC) : Prop :=
  |root.re + 1.48569| < tolerance2 ∧ |root.im + 0.295006| < tolerance2

/-- Branch condition 8 of the degree-9 classification. -/
def deg9_cond8 (root : CC) : Prop :=
  |root.re - 1.48569| < tolerance2 ∧ |root.im - 0.295006| < tolerance2

/-- The exact analytic derivative of the cubic, `f'(z) = 3z²` (spec §4.1). -/
def fprime (z : CC) : CC := 3 * z ^ 2

/-- The exact analytic derivative of the degree-9 polynomial,
`f2'(z) = 315z⁸ − 1260z⁶ + 1890z⁴ − 1260z² + 315` (spec §4.1). -/
def f2prime (z : CC) : CC :=
  315 * z ^ 8 - 1260 * z ^ 6 + 1890 * z ^ 4 - 1260 * z ^ 2 + 315

/-! ### Helper lemmas about the solver loop -/

theorem solveLoop_succ (step : CC → Option CC) (feval : CC → CC) (x0 y0 : ℚ)
    (fuel : ℕ) (z : CC) (counter : ℕ) :
    solveLoop step feval x0 y0 (fuel + 1) z counter =
      match step z with
      | none => .error ()
      | some z_new =>
        if feval z_new = 0 ∨ normSq (z_new - z) < tolerance ^ 2 then
          .ok (some (mkOutcome feval x0 y0 z_new (counter + 1)))
        else if fuel = 0 then
          .ok (some (mkOutcome feval x0 y0 z_new (counter + 1)))
        else
          solveLoop step feval x0 y0 fuel z_new (counter + 1) := rfl

/-- A division fault at the current point makes the loop raise immediately. -/
theorem solveLoop_fault (step : CC → Option CC) (feval : CC → CC) (x0 y0 : ℚ)
    (fuel : ℕ) (z : CC) (counter : ℕ) (h : step z = none) :
    solveLoop step feval x0 y0 (fuel + 1) z counter = .error () := by
  rw [solveLoop_succ, h]

/-- Loop body when the Newton step succeeds. -/
theorem solveLoop_step (step : CC → Option CC) (feval : CC → CC) (x0 y0 : ℚ)
    (fuel : ℕ) (z z_new : CC) (counter : ℕ) (h : step z = some z_new) :
    solveLoop step feval x0 y0 (fuel + 1) z counter =
      if feval z_new = 0 ∨ normSq (z_new - z) < tolerance ^ 2 then
        .ok (some (mkOutcome feval x0 y0 z_new (counter + 1)))
      else if fuel = 0 then
        .ok (some (mkOutcome feval x0 y0 z_new (counter + 1)))
      else
        solveLoop step feval x0 y0 fuel z_new (counter + 1) := by
  rw [solveLoop_succ, h]

/-- Whenever the loop returns an outcome tuple, its first two fields are the
supplied duplet, untouched by the iteration. -/
theorem solveLoop_frame (step : CC → Option CC) (feval : CC → CC) (x0 y0 : ℚ) :
    ∀ fuel z counter o,
      solveLoop step feval x0 y0 fuel z counter = .ok (some o) →
      o.x0 = x0 ∧ o.y0 = y0 := by
  intro fuel
  induction fuel with
  | zero => intro z counter o h; simp [solveLoop] at h
  | succ n ih =>
    intro z counter o h
    cases hstep : step z with
    | none => rw [solveLoop_fault step feval x0 y0 n z counter hstep] at h; simp at h
    | some z_new =>
      rw [solveLoop_step step feval x0 y0 n z z_new counter hstep] at h
      by_cases h1 : feval z_new = 0 ∨ normSq (z_new - z) < tolerance ^ 2
      · rw [if_pos h1] at h
        obtain rfl : mkOutcome feval x0 y0 z_new (counter + 1) = o := by simpa using h
        exact ⟨rfl, rfl⟩
      · rw [if_neg h1] at h
        by_cases h2 : n = 0
        · rw [if_pos h2] at h
          obtain rfl : mkOutcome feval x0 y0 z_new (counter + 1) = o := by simpa using h
          exact ⟨rfl, rfl⟩
        · rw [if_neg h2] at h
          exact ih z_new (counter + 1) o h

/-- Whenever the loop returns an outcome tuple, the counter has been
incremented at least once and at most `fuel` times. -/
theorem solveLoop_counter (step : CC → Option CC) (feval : CC → CC) (x0 y0 : ℚ) :
    ∀ fuel z counter o,
      solveLoop step feval x0 y0 fuel z counter = .ok (some o) →
      counter + 1 ≤ o.counter ∧ o.counter ≤ counter + fuel := by
  intro fuel
  induction fuel with
  | zero => intro z counter o h; simp [solveLoop] at h
  | succ n ih =>
    intro z counter o h
    cases hstep : step z with
    | none => rw [solveLoop_fault step feval x0 y0 n z counter hstep] at h; simp at h
    | some z_new =>
      rw [solveLoop_step step feval x0 y0 n z z_new counter hstep] at h
      by_cases h1 : feval z_new = 0 ∨ normSq (z_new - z) < tolerance ^ 2
      · rw [if_pos h1] at h
        obtain rfl : mkOutcome feval x0 y0 z_new (counter + 1) = o := by simpa using h
        simp [mkOutcome]
      · rw [if_neg h1] at h
        by_cases h2 : n = 0
        · rw [if_pos h2] at h
          obtain rfl : mkOutcome feval x0 y0 z_new (counter + 1) = o := by simpa using h
          simp [mkOutcome]
        · rw [if_neg h2] at h
          have := ih z_new (counter + 1) o h
          omega

/-- With at least one iteration of fuel the loop never falls off the end:
its result is an outcome tuple or a raised exception, never `None`. -/
theorem solveLoop_ne_none (step : CC → Option CC) (feval : CC → CC) (x0 y0 : ℚ) :
    ∀ fuel z counter, 1 ≤ fuel →
      solveLoop step feval x0 y0 fuel z counter ≠ .ok none := by
  intro fuel
  induction fuel with
  | zero => intro z counter h; omega
  | succ n ih =>
    intro z counter _
    cases hstep : step z with
    | none => rw [solveLoop_fault step feval x0 y0 n z counter hstep]; simp
    | some z_new =>
      rw [solveLoop_step step feval x0 y0 n z z_new counter hstep]
      by_cases h1 : feval z_new = 0 ∨ normSq (z_new - z) < tolerance ^ 2
      · rw [if_pos h1]; simp
      · rw [if_neg h1]
        by_cases h2 : n = 0
        · rw [if_pos h2]; simp
        · rw [if_neg h2]
          exact ih z_new (counter + 1) (by omega)

/-- If every one of the `fuel` loop iterations fails the convergence test,
the loop returns the outcome built from the last iterate by the same
`mkOutcome` as the convergence branch, with the counter incremented exactly
`fuel` times. -/
theorem solveLoop_exhaust (step : CC → Option CC) (feval : CC → CC) (x0 y0 : ℚ) :
    ∀ fuel z counter, 1 ≤ fuel →
      (∀ k, k < fuel → ∃ zk zk1, iterate step k z = some zk ∧ step zk = some zk1 ∧
        ¬(feval zk1 = 0 ∨ normSq (zk1 - zk) < tolerance ^ 2)) →
      ∃ zfin, iterate step fuel z = some zfin ∧
        solveLoop step feval x0 y0 fuel z counter =
          .ok (some (mkOutcome feval x0 y0 zfin (counter + fuel))) := by
  intro fuel
  induction fuel with
  | zero => intro z counter h; omega
  | succ n ih =>
    intro z counter _ hfail
    obtain ⟨z0, z1, hz0, hz1, htest⟩ := hfail 0 (by omega)
    obtain rfl : z = z0 := by simpa [iterate] using hz0
    rw [solveLoop_step step feval x0 y0 n _ z1 counter hz1, if_neg htest]
    by_cases h2 : n = 0
    · subst h2
      refine ⟨z1, ?_, ?_⟩
      · simp [iterate, hz1]
      · rw [if_pos rfl]
    · rw [if_neg h2]
      have hfail' : ∀ k, k < n → ∃ zk zk1, iterate step k z1 = some zk ∧
          step zk = some zk1 ∧ ¬(feval zk1 = 0 ∨ normSq (zk1 - zk) < tolerance ^ 2) := by
        intro k hk
        obtain ⟨zk, zk1, hzk, hzk1, ht⟩ := hfail (k + 1) (by omega)
        refine ⟨zk, zk1, ?_, hzk1, ht⟩
        rw [iterate, hz1] at hzk
        simpa using hzk
      obtain ⟨zfin, hiter, hloop⟩ := ih z1 (counter + 1) (by omega) hfail'
      refine ⟨zfin, ?_, ?_⟩
      · rw [iterate, hz1]; simpa using hiter
      · rw [hloop]
        have harith : counter + 1 + n = counter + (n + 1) := by omega
        rw [harith]

/-- Common step for the heat-map bound: a counter between `1` and `M` has
`log10` between `0` and `log10 M`. -/
theorem counter_log_bounds (c : ℕ) (M : ℤ) (h1 : 1 ≤ c) (h2 : (c : ℤ) ≤ M) :
    0 ≤ Real.logb 10 (c : ℝ) ∧ Real.logb 10 (c : ℝ) ≤ Real.logb 10 (M : ℝ) := by
  have hb : (1 : ℝ) < 10 := by norm_num
  have hc1 : (1 : ℝ) ≤ (c : ℝ) := by exact_mod_cast h1
  have hcM : (c : ℝ) ≤ (M : ℝ) := by exact_mod_cast h2
  exact ⟨Real.logb_nonneg hb hc1,
    Real.logb_le_logb_of_le hb (by linarith) hcM⟩

/-! ### The claims -/

/-- Claim C1: for the cubic `f(z) = z³ - 1` with `M ≥ 1` (and the global
tolerance `1e-9`), solving from the duplet `(1, 0)` returns the tuple with
`counter = 1`, final estimate exactly `1 + 0i` and function value exactly
`0`. -/
theorem C1_cubic_from_one_converges_in_one_step (M : ℤ) (hM : 1 ≤ M) :
    solve_cnewton 1 0 M = .ok (some ⟨1, 0, 1, 0, 1⟩) := by
  show solveLoop Newton_Raphson f 1 0 M.toNat ⟨1, 0⟩ 0 = .ok (some ⟨1, 0, 1, 0, 1⟩)
  obtain ⟨m, hm⟩ : ∃ m, M.toNat = m + 1 := ⟨M.toNat - 1, by omega⟩
  rw [hm]
  have hstep : Newton_Raphson ⟨1, 0⟩ = some ⟨1, 0⟩ := by with_unfolding_all rfl
  rw [solveLoop_step Newton_Raphson f 1 0 m ⟨1, 0⟩ ⟨1, 0⟩ 0 hstep]
  rw [if_pos (Or.inl (show f ⟨1, 0⟩ = 0 by with_unfolding_all rfl))]
  with_unfolding_all rfl

/-- Witness for C1 at `M = 1`. -/
theorem C1_witness :
    (1 : ℤ) ≤ 1 ∧ solve_cnewton 1 0 1 = .ok (some ⟨1, 0, 1, 0, 1⟩) :=
  ⟨le_rfl, C1_cubic_from_one_converges_in_one_step 1 le_rfl⟩

/-- Claim C9: both solvers return the supplied duplet coordinates verbatim as
the first two components of the outcome, not recomputed from `z`. -/
theorem C9_outcome_preserves_duplet :
    (∀ (x y : ℚ) (M : ℤ) (o : Outcome),
       solve_cnewton x y M = .ok (some o) → o.x0 = x ∧ o.y0 = y) ∧
    (∀ (x y : ℚ) (M : ℤ) (o : Outcome),
       solve_cnewton2 x y M = .ok (some o) → o.x0 = x ∧ o.y0 = y) :=
  ⟨fun x y M o h => solveLoop_frame Newton_Raphson f x y M.toNat ⟨x, y⟩ 0 o h,
   fun x y M o h => solveLoop_frame Newton_Raphson2 f2 x y M.toNat ⟨x, y⟩ 0 o h⟩

/-- Witness for C9 at the duplet `(1, 0)`, `M = 1`. -/
theorem C9_witness :
    (⟨1, 0, 1, 0, 1⟩ : Outcome).x0 = 1 ∧ (⟨1, 0, 1, 0, 1⟩ : Outcome).y0 = 0 :=
  C9_outcome_preserves_duplet.1 1 0 1 ⟨1, 0, 1, 0, 1⟩ (by with_unfolding_all rfl)

/-- Claim C10: with a non-positive iteration budget `M` the loop body never
runs and both solvers return Python's `None` (no outcome tuple); with
`M ≥ 1` the result is never `None` (an outcome, unless a division fault is
raised). -/
theorem C10_budget_exhausted_returns_none :
    (∀ (x y : ℚ) (M : ℤ), M ≤ 0 →
       solve_cnewton x y M = .ok none ∧ solve_cnewton2 x y M = .ok none) ∧
    (∀ (x y : ℚ) (M : ℤ), 1 ≤ M →
       solve_cnewton x y M ≠ .ok none ∧ solve_cnewton2 x y M ≠ .ok none) := by
  refine ⟨fun x y M hM => ?_, fun x y M hM => ?_⟩
  · have h0 : M.toNat = 0 := by omega
    constructor
    · show solveLoop Newton_Raphson f x y M.toNat ⟨x, y⟩ 0 = .ok none
      rw [h0, solveLoop]
    · show solveLoop Newton_Raphson2 f2 x y M.toNat ⟨x, y⟩ 0 = .ok none
      rw [h0, solveLoop]
  · have h1 : 1 ≤ M.toNat := by omega
    exact ⟨solveLoop_ne_none Newton_Raphson f x y M.toNat ⟨x, y⟩ 0 h1,
           solveLoop_ne_none Newton_Raphson2 f2 x y M.toNat ⟨x, y⟩ 0 h1⟩

/-- Witness for C10 at `M = 0` and `M = 1`. -/
theorem C10_witness :
    (solve_cnewton 0 0 0 = .ok none ∧ solve_cnewton2 0 0 0 = .ok none) ∧
    (solve_cnewton 1 0 1 ≠ .ok none ∧ solve_cnewton2 1 0 1 ≠ .ok none) :=
  ⟨C10_budget_exhausted_returns_none.1 0 0 0 le_rfl,
   C10_budget_exhausted_returns_none.2 1 0 1 le_rfl⟩

/-- Claim C4: whenever either solver returns an outcome (with `M ≥ 1`), its
counter satisfies `1 ≤ counter ≤ M`, hence
`0 ≤ log10 counter ≤ log10 M`. -/
theorem C4_counter_and_log_bounds (x y : ℚ) (M : ℤ) (hM : 1 ≤ M) :
    (∀ o : Outcome, solve_cnewton x y M = .ok (some o) →
       1 ≤ o.counter ∧ (o.counter : ℤ) ≤ M ∧
       0 ≤ Real.logb 10 (o.counter : ℝ) ∧
       Real.logb 10 (o.counter : ℝ) ≤ Real.logb 10 (M : ℝ)) ∧
    (∀ o : Outcome, solve_cnewton2 x y M = .ok (some o) →
       1 ≤ o.counter ∧ (o.counter : ℤ) ≤ M ∧
       0 ≤ Real.logb 10 (o.counter : ℝ) ∧
       Real.logb 10 (o.counter : ℝ) ≤ Real.logb 10 (M : ℝ)) := by
  refine ⟨fun o h => ?_, fun o h => ?_⟩
  · have hc := solveLoop_counter Newton_Raphson f x y M.toNat ⟨x, y⟩ 0 o h
    have h1 : 1 ≤ o.counter := by omega
    have h2 : (o.counter : ℤ) ≤ M := by omega
    exact ⟨h1, h2, (counter_log_bounds o.counter M h1 h2).1,
      (counter_log_bounds o.counter M h1 h2).2⟩
  · have hc := solveLoop_counter Newton_Raphson2 f2 x y M.toNat ⟨x, y⟩ 0 o h
    have h1 : 1 ≤ o.counter := by omega
    have h2 : (o.counter : ℤ) ≤ M := by omega
    exact ⟨h1, h2, (counter_log_bounds o.counter M h1 h2).1,
      (counter_log_bounds o.counter M h1 h2).2⟩

/-- Witness for C4 at the duplet `(1, 0)`, `M = 1`. -/
theorem C4_witness :
    1 ≤ (⟨1, 0, 1, 0, 1⟩ : Outcome).counter ∧
    ((⟨1, 0, 1, 0, 1⟩ : Outcome).counter : ℤ) ≤ 1 ∧
    0 ≤ Real.logb 10 ((⟨1, 0, 1, 0, 1⟩ : Outcome).counter : ℝ) ∧
    Real.logb 10 ((⟨1, 0, 1, 0, 1⟩ : Outcome).counter : ℝ) ≤
      Real.logb 10 ((1 : ℤ) : ℝ) :=
  (C4_counter_and_log_bounds 1 0 1 le_rfl).1 ⟨1, 0, 1, 0, 1⟩ (by with_unfolding_all rfl)

/-- Claim C5: if none of the first `M` iterates passes the convergence test
(`f(z_new) == 0` exactly, or `|z_new - z| < ε`), the solver still returns an
outcome: the one built by the very same `mkOutcome` used by the convergence
branch, from the last `z_new` (the `M`-th iterate), with `counter = M`.  The
`Outcome` record carries no flag distinguishing this exhaustion case from
convergence. -/
theorem C5_exhaustion_not_distinguished :
    (∀ (x y : ℚ) (M : ℤ), 1 ≤ M →
      (∀ k, k < M.toNat → ∃ zk zk1,
        iterate Newton_Raphson k ⟨x, y⟩ = some zk ∧ Newton_Raphson zk = some zk1 ∧
        ¬(f zk1 = 0 ∨ normSq (zk1 - zk) < tolerance ^ 2)) →
      ∃ zfin, iterate Newton_Raphson M.toNat ⟨x, y⟩ = some zfin ∧
        solve_cnewton x y M = .ok (some (mkOutcome f x y zfin M.toNat))) ∧
    (∀ (x y : ℚ) (M : ℤ), 1 ≤ M →
      (∀ k, k < M.toNat → ∃ zk zk1,
        iterate Newton_Raphson2 k ⟨x, y⟩ = some zk ∧ Newton_Raphson2 zk = some zk1 ∧
        ¬(f2 zk1 = 0 ∨ normSq (zk1 - zk) < tolerance ^ 2)) →
      ∃ zfin, iterate Newton_Raphson2 M.toNat ⟨x, y⟩ = some zfin ∧
        solve_cnewton2 x y M = .ok (some (mkOutcome f2 x y zfin M.toNat))) := by
  refine ⟨fun x y M hM hfail => ?_, fun x y M hM hfail => ?_⟩
  · obtain ⟨zfin, hiter, hloop⟩ :=
      solveLoop_exhaust Newton_Raphson f x y M.toNat ⟨x, y⟩ 0 (by omega) hfail
    refine ⟨zfin, hiter, ?_⟩
    show solveLoop Newton_Raphson f x y M.toNat ⟨x, y⟩ 0 = _
    rw [hloop, Nat.zero_add]
  · obtain ⟨zfin, hiter, hloop⟩ :=
      solveLoop_exhaust Newton_Raphson2 f2 x y M.toNat ⟨x, y⟩ 0 (by omega) hfail
    refine ⟨zfin, hiter, ?_⟩
    show solveLoop Newton_Raphson2 f2 x y M.toNat ⟨x, y⟩ 0 = _
    rw [hloop, Nat.zero_add]

/-- Witness for C5 at the duplet `(2, 0)` with `M = 1`: one step is taken,
the test fails (the step has size `7/12` resp. `4246/25515`, and the new
function value is nonzero), and the solver returns the exhausted outcome with
`counter = M = 1`. -/
theorem C5_witness :
    solve_cnewton 2 0 1 = .ok (some (mkOutcome f 2 0 ⟨17 / 12, 0⟩ 1)) ∧
    solve_cnewton2 2 0 1 = .ok (some (mkOutcome f2 2 0 ⟨46784 / 25515, 0⟩ 1)) := by
  constructor
  · obtain ⟨zfin, hiter, hsolve⟩ := C5_exhaustion_not_distinguished.1 2 0 1 le_rfl
      (fun k hk => by
        have hk0 : k = 0 := by omega
        subst hk0
        exact ⟨⟨2, 0⟩, ⟨17 / 12, 0⟩, by with_unfolding_all rfl,
          by with_unfolding_all rfl, of_decide_eq_true (by with_unfolding_all rfl)⟩)
    obtain rfl : zfin = ⟨17 / 12, 0⟩ := by
      have hval : iterate Newton_Raphson (Int.toNat 1) ⟨2, 0⟩ = some ⟨17 / 12, 0⟩ := by
        with_unfolding_all rfl
      exact Option.some.inj ((hiter.symm).trans hval)
    exact hsolve
  · obtain ⟨zfin, hiter, hsolve⟩ := C5_exhaustion_not_distinguished.2 2 0 1 le_rfl
      (fun k hk => by
        have hk0 : k = 0 := by omega
        subst hk0
        exact ⟨⟨2, 0⟩, ⟨46784 / 25515, 0⟩, by with_unfolding_all rfl,
          by with_unfolding_all rfl, of_decide_eq_true (by with_unfolding_all rfl)⟩)
    obtain rfl : zfin = ⟨46784 / 25515, 0⟩ := by
      have hval : iterate Newton_Raphson2 (Int.toNat 1) ⟨2, 0⟩ = some ⟨46784 / 25515, 0⟩ := by
        with_unfolding_all rfl
      exact Option.some.inj ((hiter.symm).trans hval)
    exact hsolve

/-- Claim C8: an exact root `r` of the cubic with nonzero derivative is a
fixed point of the Newton update: one application returns exactly `r`, in
particular a value within `ε = 1e-9` of `r`. -/
theorem C8_roots_are_fixed_points (r : CC) (hroot : f r = 0) (hd : fprime r ≠ 0) :
    Newton_Raphson r = some r ∧
    ∀ z_new, Newton_Raphson r = some z_new → normSq (z_new - r) < tolerance ^ 2 := by
  have hguard : ¬(3 * r ^ 2 = 0) := hd
  have hnum : r ^ 3 - 1 = (0 : CC) := hroot
  have hupdate : Newton_Raphson r = some r := by
    unfold Newton_Raphson
    rw [if_neg hguard, hnum, zero_div', sub_zero]
  refine ⟨hupdate, fun z_new hz => ?_⟩
  obtain rfl : r = z_new := by
    have := hupdate.symm.trans hz
    exact Option.some.inj this
  rw [sub_self, normSq_zero]
  rw [tolerance]
  norm_num

/-- Witness for C8 at the root `r = 1`. -/
theorem C8_witness :
    Newton_Raphson 1 = some 1 ∧ normSq ((1 : CC) - 1) < tolerance ^ 2 :=
  have h := C8_roots_are_fixed_points 1 (by with_unfolding_all rfl)
    (of_decide_eq_true (by with_unfolding_all rfl))
  ⟨h.1, h.2 1 h.1⟩

/-- The denominator of `Newton_Raphson2`, written in the source as
`35*9 z⁸ - 180*7 z⁶ + 378*5 z⁴ - 420*3 z² + 315`, is exactly the analytic
derivative polynomial `f2prime`. -/
theorem deg9_denominator_eq (z : CC) :
    35 * 9 * z ^ 8 - 180 * 7 * z ^ 6 + 378 * 5 * z ^ 4 - 420 * 3 * z ^ 2 + 315 = f2prime z := by
  rw [f2prime]; ring

/-- Claim C6: both update functions are the Newton maps `z - f(z)/f'(z)` for
the exact analytic derivatives `f'(z) = 3z²` and
`f2'(z) = 315z⁸ - 1260z⁶ + 1890z⁴ - 1260z² + 315`, and those two expressions
are indeed the derivatives of `z³ - 1` and `35z⁹ - 180z⁷ + 378z⁵ - 420z³ + 315z`
(stated over `ℂ` via `HasDerivAt`). -/
theorem C6_updates_use_exact_derivatives :
    (∀ z : CC, fprime z ≠ 0 → Newton_Raphson z = some (z - f z / fprime z)) ∧
    (∀ z : CC, f2prime z ≠ 0 → Newton_Raphson2 z = some (z - f2 z / f2prime z)) ∧
    (∀ w : ℂ, HasDerivAt (fun u : ℂ => u ^ 3 - 1) (3 * w ^ 2) w) ∧
    (∀ w : ℂ, HasDerivAt
      (fun u : ℂ => 35 * u ^ 9 - 180 * u ^ 7 + 378 * u ^ 5 - 420 * u ^ 3 + 315 * u)
      (315 * w ^ 8 - 1260 * w ^ 6 + 1890 * w ^ 4 - 1260 * w ^ 2 + 315) w) := by
  refine ⟨fun z hz => ?_, fun z hz => ?_, fun w => ?_, fun w => ?_⟩
  · unfold Newton_Raphson
    rw [if_neg (show ¬(3 * z ^ 2 = 0) from hz)]
    exact rfl
  · have hg : ¬(35 * 9 * z ^ 8 - 180 * 7 * z ^ 6 + 378 * 5 * z ^ 4 - 420 * 3 * z ^ 2 + 315
        = 0) := by
      rw [deg9_denominator_eq z]; exact hz
    unfold Newton_Raphson2
    rw [if_neg hg, deg9_denominator_eq z]
    exact rfl
  · have h := (hasDerivAt_pow 3 w).sub_const (1 : ℂ)
    convert h using 1
  · have h9 := (hasDerivAt_pow 9 w).const_mul (35 : ℂ)
    have h7 := (hasDerivAt_pow 7 w).const_mul (180 : ℂ)
    have h5 := (hasDerivAt_pow 5 w).const_mul (378 : ℂ)
    have h3 := (hasDerivAt_pow 3 w).const_mul (420 : ℂ)
    have h1 := (hasDerivAt_id w).const_mul (315 : ℂ)
    have h := (((h9.sub h7).add h5).sub h3).add h1
    convert h using 1
    push_cast
    ring

/-- Witness for C6 at `z = 1` (cubic, `f'(1) = 3 ≠ 0`) and `z = 2`
(degree 9, `f2'(2) = 25515 ≠ 0`). -/
theorem C6_witness :
    Newton_Raphson 1 = some (1 - f 1 / fprime 1) ∧
    Newton_Raphson2 ⟨2, 0⟩ = some (⟨2, 0⟩ - f2 ⟨2, 0⟩ / f2prime ⟨2, 0⟩) :=
  ⟨C6_updates_use_exact_derivatives.1 1 (of_decide_eq_true (by with_unfolding_all rfl)),
   C6_updates_use_exact_derivatives.2.1 ⟨2, 0⟩ (of_decide_eq_true (by with_unfolding_all rfl))⟩

set_option maxHeartbeats 2000000 in
/-- Claim C7: both classifications are first-match dispatches over their
ordered branch conditions, with the final `else` unconditionally claiming
everything not matched before, so every outcome value gets exactly one
label. -/
theorem C7_classification_is_first_match_partition :
    (∀ root : CC,
      (classify_cubic root = .black ↔ cubic_cond1 root) ∧
      (classify_cubic root = .green ↔ ¬cubic_cond1 root ∧ cubic_cond2 root) ∧
      (classify_cubic root = .red ↔ ¬cubic_cond1 root ∧ ¬cubic_cond2 root) ∧
      (∃! l : CubicLabel, classify_cubic root = l)) ∧
    (∀ root : CC,
      (classify_deg9 root = .black ↔ deg9_cond1 root) ∧
      (classify_deg9 root = .green ↔ ¬deg9_cond1 root ∧ deg9_cond2 root) ∧
      (classify_deg9 root = .red ↔ ¬deg9_cond1 root ∧ ¬deg9_cond2 root ∧ deg9_cond3 root) ∧
      (classify_deg9 root = .darkorchid ↔ ¬deg9_cond1 root ∧ ¬deg9_cond2 root ∧
        ¬deg9_cond3 root ∧ deg9_cond4 root) ∧
      (classify_deg9 root = .orange ↔ ¬deg9_cond1 root ∧ ¬deg9_cond2 root ∧
        ¬deg9_cond3 root ∧ ¬deg9_cond4 root ∧ deg9_cond5 root) ∧
      (classify_deg9 root = .yellow ↔ ¬deg9_cond1 root ∧ ¬deg9_cond2 root ∧
        ¬deg9_cond3 root ∧ ¬deg9_cond4 root ∧ ¬deg9_cond5 root ∧ deg9_cond6 root) ∧
      (classify_deg9 root = .cyan ↔ ¬deg9_cond1 root ∧ ¬deg9_cond2 root ∧
        ¬deg9_cond3 root ∧ ¬deg9_cond4 root ∧ ¬deg9_cond5 root ∧ ¬deg9_cond6 root ∧
        deg9_cond7 root) ∧
      (classify_deg9 root = .white ↔ ¬deg9_cond1 root ∧ ¬deg9_cond2 root ∧
        ¬deg9_cond3 root ∧ ¬deg9_cond4 root ∧ ¬deg9_cond5 root ∧ ¬deg9_cond6 root ∧
        ¬deg9_cond7 root ∧ deg9_cond8 root) ∧
      (classify_deg9 root = .pink ↔ ¬deg9_cond1 root ∧ ¬deg9_cond2 root ∧
        ¬deg9_cond3 root ∧ ¬deg9_cond4 root ∧ ¬deg9_cond5 root ∧ ¬deg9_cond6 root ∧
        ¬deg9_cond7 root ∧ ¬deg9_cond8 root) ∧
      (∃! l : Deg9Label, classify_deg9 root = l)) := by
  constructor
  · intro root
    refine ⟨?_, ?_, ?_, ⟨classify_cubic root, rfl, fun y hy => hy.symm⟩⟩ <;>
      (simp only [classify_cubic, cubic_cond1, cubic_cond2]; split_ifs <;> simp_all)
  · intro root
    refine ⟨?_, ?_, ?_, ?_, ?_, ?_, ?_, ?_, ?_,
      ⟨classify_deg9 root, rfl, fun y hy => hy.symm⟩⟩ <;>
      (simp only [classify_deg9, deg9_cond1, deg9_cond2, deg9_cond3, deg9_cond4, deg9_cond5,
        deg9_cond6, deg9_cond7, deg9_cond8]; split_ifs <;> simp_all)

/-- Claim C2 counterexample: the default 3×3 cubic grid contains the point
`(0, 0)` where the derivative is exactly zero, and the whole grid evaluation
aborts with the uncaught `ZeroDivisionError` instead of recording that
point's failure and continuing. -/
theorem C2_counterexample :
    fprime ⟨0, 0⟩ = 0 ∧
    (0, 0) ∈ gridDuplets (-2) 2 2 (-2) 3 ∧
    gridEval (fun x y => solve_cnewton x y 1) (-2) 2 2 (-2) 3 = .error () :=
  of_decide_eq_true (by with_unfolding_all rfl)

/-- Claim C2 (amended): a grid point with zero derivative is *not* handled
locally: the solver raises the division fault there, and a grid evaluation
reaching such a point aborts. -/
theorem C2_division_fault_aborts_grid :
    (∀ (x y : ℚ) (M : ℤ), 1 ≤ M → fprime ⟨x, y⟩ = 0 →
      solve_cnewton x y M = .error ()) ∧
    gridEval (fun x y => solve_cnewton x y 1) (-2) 2 2 (-2) 3 = .error () := by
  constructor
  · intro x y M hM hd
    show solveLoop Newton_Raphson f x y M.toNat ⟨x, y⟩ 0 = .error ()
    obtain ⟨m, hm⟩ : ∃ m, M.toNat = m + 1 := ⟨M.toNat - 1, by omega⟩
    rw [hm]
    refine solveLoop_fault Newton_Raphson f x y m ⟨x, y⟩ 0 ?_
    unfold Newton_Raphson
    rw [if_pos (show 3 * (⟨x, y⟩ : CC) ^ 2 = 0 from hd)]
  · with_unfolding_all rfl

/-- Witness for the amended C2 at the duplet `(0, 0)` with `M = 1`. -/
theorem C2_witness : solve_cnewton 0 0 1 = .error () :=
  C2_division_fault_aborts_grid.1 0 0 1 le_rfl (by with_unfolding_all rfl)

/-- Claim C3 counterexample: at `N = 3`, corners `(-2, 2)` and `(2, -2)`,
`i = 0`, `j = 1`, the grid point is `(0, 2)`, not the claimed
`(lerp x1 x2 (i/(N-1)), lerp y1 y2 (j/(N-1))) = (-2, 0)`: the row index
selects the *y* coordinate and the column index the *x* coordinate. -/
theorem C3_counterexample :
    grid (-2) 2 2 (-2) 3 0 1 ≠
      (lerp (-2) 2 ((0 : ℚ) / ((3 : ℚ) - 1)), lerp 2 (-2) ((1 : ℚ) / ((3 : ℚ) - 1))) :=
  of_decide_eq_true (by with_unfolding_all rfl)

/-- Claim C3 (amended): `grid[i][j] = (lerp(x1, x2, j/(N-1)), lerp(y1, y2, i/(N-1)))`
— the *column* index selects the x coordinate and the *row* index the y
coordinate — and the boundary points `grid[0][0]`, `grid[N-1][N-1]` equal the
supplied corners exactly. -/
theorem C3_grid_is_transposed_lerp (x1 y1 x2 y2 : ℚ) (N i j : ℕ)
    (hN : 2 ≤ N) (_hi : i < N) (_hj : j < N) :
    grid x1 y1 x2 y2 N i j =
      (lerp x1 x2 ((j : ℚ) / ((N : ℚ) - 1)), lerp y1 y2 ((i : ℚ) / ((N : ℚ) - 1))) ∧
    grid x1 y1 x2 y2 N 0 0 = (x1, y1) ∧
    grid x1 y1 x2 y2 N (N - 1) (N - 1) = (x2, y2) := by
  have h2 : (2 : ℚ) ≤ (N : ℚ) := by exact_mod_cast hN
  have hc : ((N : ℚ) - 1) ≠ 0 := by linarith
  refine ⟨?_, ?_, ?_⟩
  · unfold grid linspace lerp
    simp only [Prod.mk.injEq]
    constructor <;> ring
  · unfold grid linspace
    simp
  · unfold grid linspace
    have hcast : ((N - 1 : ℕ) : ℚ) = (N : ℚ) - 1 := by
      have h1 : 1 ≤ N := by omega
      push_cast [h1]
      ring
    rw [hcast]
    simp only [Prod.mk.injEq]
    constructor <;> field_simp

/-- Witness for the amended C3 at `N = 3`, corners `(-2, 2)`, `(2, -2)`,
`i = 1`, `j = 2`. -/
theorem C3_witness :
    grid (-2) 2 2 (-2) 3 1 2 =
      (lerp (-2) 2 (((2 : ℕ) : ℚ) / ((3 : ℚ) - 1)), lerp 2 (-2) (((1 : ℕ) : ℚ) / ((3 : ℚ) - 1))) ∧
    grid (-2) 2 2 (-2) 3 0 0 = (-2, 2) ∧
    grid (-2) 2 2 (-2) 3 (3 - 1) (3 - 1) = (2, -2) :=
  C3_grid_is_transposed_lerp (-2) 2 2 (-2) 3 1 2 (by decide) (by decide) (by decide)

end Fractal
